import Mathlib

/-!
# Verification of the obit_transcriber transcription pipeline

A shallow embedding of the core of the `obit_transcriber` repository:

* `src/src/transcriber.py` — `replace_text_with_dict`, `clean_irregular_text`,
  `transcribe_images`, `get_obituary_url`;
* `src/src/textnormalizer.py` — `TextNormalizer.clean_text` and its rule groups;
* `src/src/autocorrection.py` / `src/obit_reader.py` — `autocorrect_text`;
* `src/src/database.py` — `ObituaryRecord.from_image_path`, `format_name`,
  `ObituaryDatabase.get_record_by_image_path`, `ObituaryDatabase.update_url`;
* `src/src/preprocessing.py` — the validation prefix of `preprocess_image`.

Python strings are modelled as `List Char` (wrapped in `String` at the
boundaries); the regular expressions of the source are each embedded as a
dedicated recursive function implementing CPython `re.sub` semantics for that
concrete pattern (leftmost match, scanning resumes after the consumed match,
greedy quantifiers).  The character classes `\w`, `\d`, `\s` are modelled on
their ASCII core (Lean's `Char.isAlpha`/`Char.isDigit`), which coincides with
CPython on every input considered here.  The external world — filesystem,
OpenCV, PIL, Tesseract, SQLite — is abstracted into explicit per-image
outcome fields and an in-memory record list standing for the `obituaries`
table (rows in insertion order).
-/

/-! ## Character classes and elementary string operations -/

/-- The ASCII whitespace set of Python `str.strip` / `str.split` / `\s`. -/
def isPySpace (c : Char) : Bool :=
  c = ' ' || c = '\t' || c = '\n' || c = '\r' || c = '\x0b' || c = '\x0c'

/-- Python regex `\w` (ASCII core): letters, digits, underscore. -/
def isWordChar (c : Char) : Bool :=
  c.isAlpha || c.isDigit || c = '_'

/-- Python `line.strip()`: drop leading and trailing whitespace. -/
def pyStrip (l : List Char) : List Char :=
  ((l.dropWhile isPySpace).reverse.dropWhile isPySpace).reverse

/-- Python `s.split(sep)` for a one-character separator: split on every
occurrence, keeping empty pieces (`"".split("_") == [""]`). -/
def splitOnChar (sep : Char) : List Char → List (List Char)
  | [] => [[]]
  | c :: rest =>
    match splitOnChar sep rest with
    | [] => [[]]
    | h :: t => if c = sep then [] :: h :: t else (c :: h) :: t

/-- Join pieces with a one-character separator (`sep.join(parts)`). -/
def joinWithChar (sep : Char) : List (List Char) → List Char
  | [] => []
  | [p] => p
  | p :: ps => p ++ sep :: joinWithChar sep ps

/-- Python `s.splitlines()` after all `\r` have been normalised away:
split on `'\n'`, a trailing newline producing no final empty line
(`"".splitlines() == []`, `"a\n".splitlines() == ["a"]`). -/
def pySplitlines (l : List Char) : List (List Char) :=
  match l with
  | [] => []
  | _ =>
    let parts := splitOnChar '\n' l
    if parts.getLast? = some [] then parts.dropLast else parts

/-- Does `pre` prefix `l`? -/
def startsWithL : List Char → List Char → Bool
  | [], _ => true
  | _ :: _, [] => false
  | p :: ps, c :: cs => p = c && startsWithL ps cs

/-- CPython `str.replace(pat, rep)` / `re.sub` on a literal pattern:
leftmost, non-overlapping, scanning resumes after each replacement.
`fuel` bounds the recursion; `fuel = l.length` never runs out. -/
def subLitFuel (pat rep : List Char) : Nat → List Char → List Char
  | 0, l => l
  | _ + 1, [] => []
  | n + 1, c :: rest =>
    if startsWithL pat (c :: rest) && pat ≠ [] then
      rep ++ subLitFuel pat rep n ((c :: rest).drop pat.length)
    else
      c :: subLitFuel pat rep n rest

/-- Literal substring replacement, all occurrences. -/
def subLit (pat rep l : List Char) : List Char :=
  subLitFuel pat rep l.length l

/-- Embeds `re.sub(r"([a-zA-Z])D([a-zA-Z])", r"\1R\2", ·)` for a concrete digit `d`
and replacement letter `r`: a match consumes three characters (the trailing
letter included), so scanning resumes after it. -/
def subLDL (d r : Char) : List Char → List Char
  | a :: b :: c :: rest =>
    if a.isAlpha && b = d && c.isAlpha then
      a :: r :: c :: subLDL d r rest
    else
      a :: subLDL d r (b :: c :: rest)
  | l => l

/-- One attempt of `re` matching `(\w+)-\s*\n\s*(\w+)` anchored at the head of
`l`: the greedy word run, a hyphen, then the whole whitespace run (which must
contain a newline — backtracking cannot stop inside the run because `(\w+)`
must follow), then the greedy second word run.  Returns the two groups and
the remainder after the match. -/
def hyphMatch (l : List Char) : Option (List Char × List Char × List Char) :=
  let w1 := l.takeWhile isWordChar
  if w1.isEmpty then none
  else
    match l.drop w1.length with
    | '-' :: rest2 =>
      let ws := rest2.takeWhile isPySpace
      if ws.contains '\n' then
        let rest3 := rest2.drop ws.length
        let w2 := rest3.takeWhile isWordChar
        if w2.isEmpty then none
        else some (w1, w2, rest3.drop w2.length)
      else none
    | _ => none

/-- Embeds `re.sub(r"(\w+)-\s*\n\s*(\w+)", r"\1\2", ·)`: rejoin a word broken across
a line boundary.  `fuel = l.length` never runs out (a match consumes at least
four characters). -/
def subHyphFuel : Nat → List Char → List Char
  | 0, l => l
  | _ + 1, [] => []
  | n + 1, c :: rest =>
    match hyphMatch (c :: rest) with
    | some (g1, g2, after) => g1 ++ g2 ++ subHyphFuel n after
    | none => c :: subHyphFuel n rest

/-- Hyphenation repair (`hyphenation_fixes`). -/
def subHyph (l : List Char) : List Char :=
  subHyphFuel l.length l

/-- Embeds `re.sub(r" +", " ", ·)`: collapse each run of spaces to one space. -/
def collapseSpacesFuel : Nat → List Char → List Char
  | 0, l => l
  | _ + 1, [] => []
  | n + 1, c :: rest =>
    if c = ' ' then ' ' :: collapseSpacesFuel n (rest.dropWhile (· = ' '))
    else c :: collapseSpacesFuel n rest

/-- Intra-line space collapse. -/
def collapseSpaces (l : List Char) : List Char :=
  collapseSpacesFuel l.length l

/-- The stray-glyph set `[§|•~`]` of `character_removals`
(section sign, pipe, bullet, tilde, backtick). -/
def strayGlyphs : List Char := ['§', '|', '•', '~', '`']

/-- Embeds `re.sub(r"[§|•~`]", "", ·)`: delete each stray glyph. -/
def removeStray (l : List Char) : List Char :=
  l.filter (fun c => !(strayGlyphs.contains c))

/-- The quote-glyph class `[\"`´]`: double quote, backtick, acute accent. -/
def quoteGlyphs : List Char := ['"', '`', '´']

/-- Embeds `re.sub(r"[\"`´]", "'", ·)` (`quote_fixes`): unify quote glyphs to `'`. -/
def quoteFix (l : List Char) : List Char :=
  l.map (fun c => if quoteGlyphs.contains c then '\'' else c)

/-- Embeds `re.sub(r"\n(?!<PARAGRAPH>)", "\n", ·)`: each newline not followed by the
literal tag `<PARAGRAPH>` is replaced by a newline — the identity on every
character, kept in the shape of the source rule. -/
def subNlTag : List Char → List Char
  | [] => []
  | c :: rest =>
    if c = '\n' && !startsWithL ['<', 'P', 'A', 'R', 'A', 'G', 'R', 'A', 'P', 'H', '>'] rest then
      '\n' :: subNlTag rest
    else
      c :: subNlTag rest

/-! ## `src/src/transcriber.py` — text repair -/

/-- The year-abbreviation fixes `'9o → '90` … `'6o → '60`, in source order. -/
def yearFixes (l : List Char) : List Char :=
  subLit ['\'', '6', 'o'] ['\'', '6', '0']
    (subLit ['\'', '7', 'o'] ['\'', '7', '0']
      (subLit ['\'', '8', 'o'] ['\'', '8', '0']
        (subLit ['\'', '9', 'o'] ['\'', '9', '0'] l)))

/-- The four OCR digit-to-letter rules, in source order: `4→a`, `1→l`,
`0→o`, `5→s`, each only between two ASCII letters. -/
def ocrDigitFixes (l : List Char) : List Char :=
  subLDL '5' 's' (subLDL '0' 'o' (subLDL '1' 'l' (subLDL '4' 'a' l)))

/-- Embeds `transcriber.replace_text_with_dict`: the ordered fold of the replacement
dictionary — hyphenation, the four digit rules, the four year fixes, stray
glyph removal, and the (identity) newline rule. -/
def replace_text_with_dict (l : List Char) : List Char :=
  subNlTag (removeStray (yearFixes (ocrDigitFixes (subHyph l))))

/-- Split on `'\n'`, strip every line, and rejoin (steps 1–2 of
`clean_irregular_text`, also `TextNormalizer.strip_lines`). -/
def stripLines (l : List Char) : List Char :=
  joinWithChar '\n' ((splitOnChar '\n' l).map pyStrip)

/-- Normalise `\r\n` and `\r` to `\n` (`str.replace` twice, also
`TextNormalizer.normalize_line_endings`). -/
def normalizeLineEndings (l : List Char) : List Char :=
  subLit ['\r'] ['\n'] (subLit ['\r', '\n'] ['\n'] l)

/-- Embeds `transcriber.clean_irregular_text`: normalise line endings, strip each
line, then apply the replacement dictionary. -/
def clean_irregular_text (s : String) : String :=
  ⟨replace_text_with_dict (stripLines (normalizeLineEndings s.data))⟩

/-! ## `src/src/textnormalizer.py` — `TextNormalizer` -/

/-- Embeds `TextNormalizer.normalize_whitespace`: `splitlines`, strip each line,
collapse space runs, normalise quote glyphs, rejoin with `\n`. -/
def TextNormalizer.normalize_whitespace (l : List Char) : List Char :=
  joinWithChar '\n'
    (((pySplitlines l).map pyStrip).map (fun line => quoteFix (collapseSpaces line)))

/-- Embeds `TextNormalizer.fix_ocr_errors`: digit rules then year fixes. -/
def TextNormalizer.fix_ocr_errors (l : List Char) : List Char :=
  yearFixes (ocrDigitFixes l)

/-- Embeds `TextNormalizer.clean_text` with `normalize_quotes=True` (the default):
line endings, strip lines, hyphenation, OCR fixes, stray-glyph removal,
whitespace normalisation, and a final quote normalisation; an empty ("falsy")
input is returned unchanged. -/
def TextNormalizer.clean_text (s : String) : String :=
  if s = "" then s
  else
    ⟨quoteFix
      (TextNormalizer.normalize_whitespace
        (removeStray
          (TextNormalizer.fix_ocr_errors
            (subHyph (stripLines (normalizeLineEndings s.data))))))⟩


/-! ## `src/obit_reader.py` — `autocorrect_text`

`src/src/autocorrection.py` carries a later copy of this function whose body
is syntactically invalid (an `if` statement at its lines 158–160 has no
block, and it references the undefined names `result_append` and
`punctuation`), so the behaviour specified — and asserted by
`src/tests/test_autocorrection.py` — is that of the complete implementation
in `src/obit_reader.py`, embedded here.  The external `pyspellchecker`
dictionary is abstracted as `corr : String → Option String`
(`spell.correction`, `None` when no suggestion exists); its `or word`
fallback also treats an empty suggestion as falsy, modelled by `pyOr`.
The source iterates the token list in chunks of 100 (`batch_size`), which
is plain left-to-right iteration over all tokens. -/

/-- The fixed trailing-punctuation set `PUNCT_SET`. -/
def PUNCT_SET : List Char :=
  ['.', ',', ':', ';', '!', '?', '(', ')', '[', ']', '\x7b', '\x7d', '\"', '\'']

/-- Membership in `PUNCT_SET`. -/
def isPunct (c : Char) : Bool := PUNCT_SET.contains c

/-- Python `x or word` for `x = spell.correction(word)`: fall back to the
original word when the suggestion is `None` or empty. -/
def pyOr (o : Option String) (w : List Char) : List Char :=
  match o with
  | none => w
  | some s => if s = "" then w else s.data

/-- Python `text.split()`: split on whitespace runs, producing no empty
tokens (accumulator-based scan). -/
def pySplitAux : List Char → List Char → List (List Char)
  | [], acc => if acc.isEmpty then [] else [acc.reverse]
  | c :: rest, acc =>
    if isPySpace c then
      if acc.isEmpty then pySplitAux rest []
      else acc.reverse :: pySplitAux rest []
    else pySplitAux rest (c :: acc)

/-- Python `text.split()`. -/
def pySplit (l : List Char) : List (List Char) :=
  pySplitAux l []

/-- The per-token body of the `for word in batch` loop of
`obit_reader.autocorrect_text`; `none` models `continue` with nothing
appended (the empty-token case).  The trailing-punctuation scan
(`while end_idx >= 0 and word[end_idx] in PUNCT_SET`) is the maximal
trailing run of `PUNCT_SET` characters, taken here off the reversed list. -/
def correctToken (corr : String → Option String) (w : List Char) : Option (List Char) :=
  match w with
  | [] => none
  | c0 :: cs =>
    if !isPunct ((c0 :: cs).getLast (List.cons_ne_nil c0 cs)) then
      if c0.isUpper then some w else some (pyOr (corr ⟨w⟩) w)
    else
      let core := (w.reverse.dropWhile isPunct).reverse
      let punct := (w.reverse.takeWhile isPunct).reverse
      match core with
      | [] => some w
      | d0 :: _ =>
        if d0.isUpper then some (core ++ punct)
        else some (pyOr (corr ⟨core⟩) core ++ punct)

/-- Embeds `obit_reader.autocorrect_text`: split on whitespace, correct each token,
rejoin with single spaces. -/
def autocorrect_text (corr : String → Option String) (s : String) : String :=
  ⟨joinWithChar ' ' ((pySplit s.data).filterMap (correctToken corr))⟩

/-! ## `src/src/database.py` — records and the store

The SQLite table `obituaries` is modelled as a `List ObituaryRecord` in
insertion order; the `image` BLOB (a PIL thumbnail re-encoded as JPEG, an
external computation) is an opaque `Nat` payload, and the surrogate `id` and
`created_at` columns, never read back by the code under verification, are
not materialised. -/

/-- A `datetime.date` value (already validated by its constructor). -/
structure PyDate where
  year : Nat
  month : Nat
  day : Nat
deriving DecidableEq, Repr

/-- The `ObituaryRecord` dataclass, field for field (defaults included). -/
structure ObituaryRecord where
  image_path : String
  text_content : String
  obituary_url : Option String := none
  year : Option String := none
  month : Option String := none
  day : Option String := none
  date_published : Option PyDate := none
  name : Option String := none
  last_name : Option String := none
  first_name : Option String := none
  image : Option Nat := none
deriving DecidableEq, Repr

/-- Embeds `PurePath.name`: the final path component. -/
def pathName (p : String) : String :=
  ⟨(splitOnChar '/' p.data).getLastD []⟩

/-- Embeds `PurePath.stem`: the final component without its last suffix; a dot at
the start of the component does not begin a suffix. -/
def pathStem (p : String) : String :=
  let n := (splitOnChar '/' p.data).getLastD []
  let r := n.reverse
  let ext := r.takeWhile (· ≠ '.')
  if ext.length < r.length && !(r.drop (ext.length + 1)).isEmpty then
    ⟨(r.drop (ext.length + 1)).reverse⟩
  else
    ⟨n⟩

/-- Embeds `PurePath.suffix`: the last suffix of the final component, dot included,
or the empty string. -/
def pathSuffix (p : String) : String :=
  let n := (splitOnChar '/' p.data).getLastD []
  let r := n.reverse
  let ext := r.takeWhile (· ≠ '.')
  if ext.length < r.length && !(r.drop (ext.length + 1)).isEmpty then
    ⟨'.' :: ext.reverse⟩
  else
    ""

/-- Embeds `int(·)` on an all-digit string. -/
def toNatDigits (s : String) : Nat :=
  s.data.foldl (fun acc c => acc * 10 + (c.toNat - '0'.toNat)) 0

/-- Gregorian leap year, as `datetime` computes it. -/
def isLeapYear (y : Nat) : Bool :=
  y % 4 = 0 && (y % 100 ≠ 0 || y % 400 = 0)

/-- Days in a month of the proleptic Gregorian calendar. -/
def daysInMonth (y m : Nat) : Nat :=
  if m = 2 then (if isLeapYear y then 29 else 28)
  else if m = 4 || m = 6 || m = 9 || m = 11 then 30
  else 31

/-- Whether `datetime.date(y, m, d)` succeeds (`MINYEAR = 1`,
`MAXYEAR = 9999`). -/
def isValidDate (y m d : Nat) : Bool :=
  1 ≤ y && y ≤ 9999 && 1 ≤ m && m ≤ 12 && 1 ≤ d && d ≤ daysInMonth y m

/-- Embeds `re.match(r"(\d{4})(\d{2})(\d{2})_(.*)", filename)`: anchored at the
start, eight digits, an underscore, then the greedy `.*` group, which stops
at a newline (`re.match` does not require the match to span the string). -/
def matchDatePattern (s : String) : Option (String × String × String × String) :=
  match s.data with
  | y1 :: y2 :: y3 :: y4 :: m1 :: m2 :: d1 :: d2 :: '_' :: rest =>
    if y1.isDigit && y2.isDigit && y3.isDigit && y4.isDigit &&
       m1.isDigit && m2.isDigit && d1.isDigit && d2.isDigit then
      some (⟨[y1, y2, y3, y4]⟩, ⟨[m1, m2]⟩, ⟨[d1, d2]⟩, ⟨rest.takeWhile (· ≠ '\n')⟩)
    else none
  | _ => none

/-- Embeds `database.format_name`: `("", "", "")` on the empty segment; the raw
segment with absent first/last names when it has no underscore; otherwise
`(last ++ ", " ++ first_middle, first_middle, last)` with the pieces
stripped.  Tuple order as in the source: full, first-and-middle, last. -/
def format_name (snake_case_name : String) :
    Option String × Option String × Option String :=
  if snake_case_name = "" then (some "", some "", some "")
  else
    let name_parts := splitOnChar '_' snake_case_name.data
    if name_parts.length < 2 then (some snake_case_name, none, none)
    else
      let last := pyStrip (name_parts.headD [])
      let firstmid := pyStrip (joinWithChar ' ' name_parts.tail)
      (some ⟨last ++ ',' :: ' ' :: firstmid⟩, some ⟨firstmid⟩, some ⟨last⟩)

/-- Embeds `ObituaryRecord.from_image_path`: derive date and name metadata from the
filename stem.  `imageData` stands for the compressed thumbnail buffer the
source always attaches (`buffer.getvalue()`); `str(Path(image_path))` is the
identity on the already-normalised paths considered. -/
def ObituaryRecord.from_image_path (image_path text_content : String)
    (imageData : Nat) (obituary_url : Option String := none) : ObituaryRecord :=
  let filename := pathStem image_path
  match matchDatePattern filename with
  | none =>
    { image_path := image_path, text_content := text_content,
      obituary_url := obituary_url, image := some imageData }
  | some (y, m, d, nm) =>
    let dp :=
      if isValidDate (toNatDigits y) (toNatDigits m) (toNatDigits d) then
        some ⟨toNatDigits y, toNatDigits m, toNatDigits d⟩
      else none
    let fml := format_name nm
    { image_path := image_path, text_content := text_content,
      obituary_url := obituary_url,
      year := some y, month := some m, day := some d, date_published := dp,
      name := fml.1, first_name := fml.2.1, last_name := fml.2.2,
      image := some imageData }

/-- Embeds `ObituaryDatabase.get_record_by_image_path`: `WHERE image_path = ?`,
`fetchone()` — the first row in insertion order with that exact path. -/
def get_record_by_image_path (db : List ObituaryRecord) (p : String) :
    Option ObituaryRecord :=
  db.find? (fun r => r.image_path == p)

/-- Embeds `ObituaryDatabase.update_url`: `UPDATE obituaries SET obituary_url = ?
WHERE image_path = ?`, returning `cursor.rowcount > 0` (SQLite counts every
row matched by the `WHERE` clause). -/
def update_url (db : List ObituaryRecord) (p url : String) :
    List ObituaryRecord × Bool :=
  (db.map (fun r => if r.image_path == p then { r with obituary_url := some url } else r),
   db.any (fun r => r.image_path == p))

/-- Number of stored rows with a given `image_path`. -/
def countPath (db : List ObituaryRecord) (p : String) : Nat :=
  (db.filter (fun r => r.image_path == p)).length

/-! ## `src/src/preprocessing.py` — validation prefix of `preprocess_image`

The four precondition checks are embedded exactly in source order; the
subsequent OpenCV enhancement pipeline (grayscale, blur, bilateral filter,
CLAHE, Otsu, dilation, inversion) is external image processing whose output
the claims never inspect, so success is `Except.ok ()`. -/

/-- The failure modes of `preprocess_image`, one per distinct check.
`fileNotFound` is a `FileNotFoundError`; the other three are `ValueError`s
with distinct messages. -/
inductive FileValidationError where
  | fileNotFound
  | unsupportedType
  | emptyFile
  | corruptFile
deriving DecidableEq, Repr

/-- Which of the four exceptions CPython's `except ValueError` catches:
`FileNotFoundError` subclasses `OSError`, not `ValueError`. -/
def FileValidationError.isValueError : FileValidationError → Bool
  | .fileNotFound => false
  | _ => true

/-- A file as the validation code observes it: `is_file()`,
`stat().st_size`, and whether `PIL.Image.verify()` passes. -/
structure FsFile where
  path : String
  isFile : Bool
  size : Nat
  verifies : Bool
deriving Repr

/-- Python `str.lower()` (ASCII core). -/
def lowerStr (s : String) : String :=
  ⟨s.data.map Char.toLower⟩

/-- The supported raster suffixes `[".jpg", ".jpeg", ".png"]`. -/
def supportedSuffixes : List String := [".jpg", ".jpeg", ".png"]

/-- Embeds `preprocessing.preprocess_image`, validation prefix: existence, suffix,
size, then a lightweight decode check, each with its own error. -/
def preprocess_image (f : FsFile) : Except FileValidationError Unit :=
  if !f.isFile then .error .fileNotFound
  else if !(supportedSuffixes.contains (lowerStr (pathSuffix f.path))) then
    .error .unsupportedType
  else if f.size = 0 then .error .emptyFile
  else if !f.verifies then .error .corruptFile
  else .ok ()

/-! ## `src/src/transcriber.py` — the batch orchestrator

`transcribe_images` iterates `Path(filepath).rglob("*.jpg")`; each listed
file is an `ImageFile`: its filesystem view (whose `path` is `str(file)`,
the path as listed), its `file.name`, and the outcome of the
`Image.open` / `pytesseract.image_to_string` phase.  The store is the
record list; the function returns `processed_records` next to it, or
`Except.error ()` when an uncaught exception propagates to the caller. -/

/-- Outcome of the OCR phase for one image. -/
inductive OcrOutcome where
  | text (s : String)
  | unidentifiedImage
  | failure
deriving Repr

/-- One file of the batch, with its per-stage outcomes. -/
structure ImageFile where
  fs : FsFile
  name : String
  ocr : OcrOutcome
deriving Repr

/-- Embeds `transcriber.get_obituary_url`: rebuild the archive URL from the stem. -/
def get_obituary_url (full : String) : String :=
  "http://obit.glbthistory.org/olo/display.jsp?name=" ++ pathStem full

/-- Embeds `autocorrection.normalize_whitespace` (imported by the orchestrator for
its `normalize=True` default): same body as
`TextNormalizer.normalize_whitespace`. -/
def normalize_whitespace (s : String) : String :=
  ⟨TextNormalizer.normalize_whitespace s.data⟩

/-- The per-image loop of `transcribe_images` (defaults `spellcheck=False`,
`normalize=True`), exactly as written:

* an existing record for `str(file)` is appended and the image skipped;
* `preprocess_image` failures: `except ValueError` logs and continues, but a
  `FileNotFoundError` is not a `ValueError` and propagates, aborting the
  batch (`Except.error ()`);
* in the OCR phase, `UnidentifiedImageError` and the blanket
  `except Exception` both log and continue;
* on OCR success the call `ObituaryRecord.from_image_path(image_path=
  str(file.name), text_content=text, obituary_url=...)` omits the required
  positional parameter `raw_image` of its signature, so CPython raises
  `TypeError` before any record is built — caught by the blanket
  `except Exception`: nothing is inserted and nothing is appended. -/
def transcribe_images_aux :
    List ImageFile → List ObituaryRecord → List ObituaryRecord →
    Except Unit (List ObituaryRecord × List ObituaryRecord)
  | [], db, acc => .ok (db, acc)
  | f :: rest, db, acc =>
    match get_record_by_image_path db f.fs.path with
    | some r => transcribe_images_aux rest db (acc ++ [r])
    | none =>
      match preprocess_image f.fs with
      | .error e =>
        if e.isValueError then transcribe_images_aux rest db acc
        else .error ()
      | .ok () =>
        match f.ocr with
        | .unidentifiedImage => transcribe_images_aux rest db acc
        | .failure => transcribe_images_aux rest db acc
        | .text t =>
          let _txt := normalize_whitespace (clean_irregular_text t)
          transcribe_images_aux rest db acc

/-- Embeds `transcriber.transcribe_images` over a freshly opened store state. -/
def transcribe_images (files : List ImageFile) (db : List ObituaryRecord) :
    Except Unit (List ObituaryRecord × List ObituaryRecord) :=
  transcribe_images_aux files db []

/-- The same loop with the record-construction slip repaired:
`from_image_path` applied as its signature requires (thumbnail payload `0`),
so that the insert the surrounding code is written for actually happens —
with `image_path = str(file.name)` and the lookup key `str(file)` kept
exactly as in the source.  This is the loop the spec describes, used to
examine the dedup behaviour of the lookup/insert pair. -/
def transcribe_images_aux_intended :
    List ImageFile → List ObituaryRecord → List ObituaryRecord →
    Except Unit (List ObituaryRecord × List ObituaryRecord)
  | [], db, acc => .ok (db, acc)
  | f :: rest, db, acc =>
    match get_record_by_image_path db f.fs.path with
    | some r => transcribe_images_aux_intended rest db (acc ++ [r])
    | none =>
      match preprocess_image f.fs with
      | .error e =>
        if e.isValueError then transcribe_images_aux_intended rest db acc
        else .error ()
      | .ok () =>
        match f.ocr with
        | .unidentifiedImage => transcribe_images_aux_intended rest db acc
        | .failure => transcribe_images_aux_intended rest db acc
        | .text t =>
          let txt := normalize_whitespace (clean_irregular_text t)
          let r := ObituaryRecord.from_image_path f.name txt 0
            (some (get_obituary_url f.fs.path))
          transcribe_images_aux_intended rest (db ++ [r]) (acc ++ [r])

/-- Embeds `transcribe_images` with the intended insert, fresh result list. -/
def transcribe_images_intended (files : List ImageFile)
    (db : List ObituaryRecord) :
    Except Unit (List ObituaryRecord × List ObituaryRecord) :=
  transcribe_images_aux_intended files db []

/-- The store after a run of the intended loop (unchanged on abort). -/
def storeAfterIntended (files : List ImageFile) (db : List ObituaryRecord) :
    List ObituaryRecord :=
  match transcribe_images_intended files db with
  | .ok pr => pr.1
  | .error _ => db

/-! Concrete batch fixtures for the orchestrator claims. -/

/-- A healthy scanned image inside the directory `obits`. -/
def altFile : ImageFile :=
  { fs := { path := "obits/19910110_Alt.jpg", isFile := true, size := 5, verifies := true },
    name := "19910110_Alt.jpg",
    ocr := .text "t" }

/-- A listed file deleted before processing: `is_file()` is false. -/
def ghostFile : ImageFile :=
  { fs := { path := "obits/gone.jpg", isFile := false, size := 0, verifies := false },
    name := "gone.jpg",
    ocr := .failure }


/-! ## Remaining fixtures and observations used by the claims -/

/-- Does the text contain a digit-repair site: one of `4`, `1`, `0`, `5`
with an ASCII letter immediately on each side? -/
def hasLDL : List Char → Bool
  | a :: b :: c :: rest =>
    (a.isAlpha && (b = '4' || b = '1' || b = '0' || b = '5') && c.isAlpha) ||
      hasLDL (b :: c :: rest)
  | _ => false

/-- A concrete stand-in for the `pyspellchecker` dictionary. -/
def corrEx : String → Option String :=
  fun s => if s = "londn" then some "london"
           else if s = "tst" then some "test"
           else none

/-- Default record for positional (`getD`) access to the store. -/
def emptyRecord : ObituaryRecord :=
  { image_path := "", text_content := "" }

/-- A two-row store fixture. -/
def db0 : List ObituaryRecord :=
  [{ image_path := "a.jpg", text_content := "x" },
   { image_path := "b.jpg", text_content := "y" }]

/-! # Theorems

Shared helper lemmas first, then one theorem (plus witness or
counterexample) per claim. -/

/-! ## Helper lemmas -/

/-- Splitting on a character that does not occur returns the single piece. -/
theorem splitOnChar_eq_single {sep : Char} :
    ∀ l : List Char, sep ∉ l → splitOnChar sep l = [l] := by
  intro l
  induction l with
  | nil => intro _; rfl
  | cons c rest ih =>
    intro h
    have hc : ¬(c = sep) := by
      intro hc; exact h (hc ▸ List.mem_cons_self c rest)
    have hr : splitOnChar sep rest = [rest] :=
      ih (fun hm => h (List.mem_cons_of_mem c hm))
    simp [splitOnChar, hr, hc]

/-- A digit-between-letters rule leaves text without any repair site
unchanged (for each of the four digits of the rule set). -/
theorem subLDL_eq_of_no_site (d r : Char)
    (hd : d = '4' ∨ d = '1' ∨ d = '0' ∨ d = '5') :
    ∀ l : List Char, hasLDL l = false → subLDL d r l = l := by
  intro l
  induction l with
  | nil => intro _; rfl
  | cons a tail ih =>
    intro h
    match tail, ih, h with
    | [], _, _ => rfl
    | [b], _, _ => rfl
    | b :: c :: rest, ih, h =>
      simp only [hasLDL, Bool.or_eq_false_iff] at h
      obtain ⟨hsite, htail⟩ := h
      have hcond : (a.isAlpha && b = d && c.isAlpha) = false := by
        by_cases hb : b = d
        · have h4 : (b = '4' || b = '1' || b = '0' || b = '5') = true := by
            rcases hd with rfl | rfl | rfl | rfl <;> simp [hb]
          rw [h4, Bool.and_true] at hsite
          simpa [hb] using hsite
        · simp [hb]
      simp only [subLDL, hcond, Bool.false_eq_true, if_false]
      rw [ih htail]

/-- All four digit-repair rules together leave site-free text unchanged. -/
theorem ocrDigitFixes_eq_of_no_site (l : List Char) (h : hasLDL l = false) :
    ocrDigitFixes l = l := by
  unfold ocrDigitFixes
  rw [subLDL_eq_of_no_site '4' 'a' (by simp) l h,
      subLDL_eq_of_no_site '1' 'l' (by simp) l h,
      subLDL_eq_of_no_site '0' 'o' (by simp) l h,
      subLDL_eq_of_no_site '5' 's' (by simp) l h]

/-! ## C5 — digit repair only between letters -/

/-- C5: the digit-repair rules replace a digit only when both immediate
neighbours are ASCII letters (`4→a`, `1→l`, `0→o`, `5→s`): text without a
letter-digit-letter site is left unchanged by the rule group, and the
pipeline `clean` maps `"c4t"↦"cat"`, `"he1lo"↦"hello"`, `"h0me"↦"home"`,
`"pas5word"↦"password"`, while `"4 cats"` is untouched. -/
theorem c5_digit_repair :
    (∀ l : List Char, hasLDL l = false → ocrDigitFixes l = l) ∧
    clean_irregular_text "c4t" = "cat" ∧
    clean_irregular_text "he1lo" = "hello" ∧
    clean_irregular_text "h0me" = "home" ∧
    clean_irregular_text "pas5word" = "password" ∧
    clean_irregular_text "4 cats" = "4 cats" :=
  ⟨fun l h => ocrDigitFixes_eq_of_no_site l h, by decide, by decide, by decide,
   by decide, by decide⟩

/-- C5 witness: the universal part applied at `"4 cats"`. -/
theorem c5_digit_repair_witness :
    hasLDL "4 cats".data = false ∧ ocrDigitFixes "4 cats".data = "4 cats".data :=
  ⟨by decide, c5_digit_repair.1 "4 cats".data (by decide)⟩

/-! ## C7 — invalid date tolerance -/

/-- C7: when the filename stem matches the `YYYYMMDD_Name` pattern but the
eight-digit prefix is not a valid calendar date, the record keeps the parsed
year/month/day strings while `date_published` is `None`. -/
theorem c7_invalid_date_tolerance (p t : String) (i : Nat) (u : Option String)
    (y m d nm : String)
    (hm : matchDatePattern (pathStem p) = some (y, m, d, nm))
    (hv : isValidDate (toNatDigits y) (toNatDigits m) (toNatDigits d) = false) :
    (ObituaryRecord.from_image_path p t i u).year = some y ∧
    (ObituaryRecord.from_image_path p t i u).month = some m ∧
    (ObituaryRecord.from_image_path p t i u).day = some d ∧
    (ObituaryRecord.from_image_path p t i u).date_published = none := by
  simp only [ObituaryRecord.from_image_path]
  rw [hm]
  simp [hv]

/-- C7 witness: the stem `"19910231_Doe_Jane"` (day 31 of a 28-day month). -/
theorem c7_invalid_date_tolerance_witness :
    (ObituaryRecord.from_image_path "19910231_Doe_Jane.jpg" "t" 0 none).year = some "1991" ∧
    (ObituaryRecord.from_image_path "19910231_Doe_Jane.jpg" "t" 0 none).month = some "02" ∧
    (ObituaryRecord.from_image_path "19910231_Doe_Jane.jpg" "t" 0 none).day = some "31" ∧
    (ObituaryRecord.from_image_path "19910231_Doe_Jane.jpg" "t" 0 none).date_published = none :=
  c7_invalid_date_tolerance "19910231_Doe_Jane.jpg" "t" 0 none
    "1991" "02" "31" "Doe_Jane" (by decide) (by decide)

/-! ## C9 — preprocessing validation order -/

/-- C9: `preprocess_image` fails with a distinct error per violated
precondition, checked in source order — missing file, unsupported suffix,
zero size, failed verify — and succeeds exactly when all four hold. -/
theorem c9_preprocess_validation (f : FsFile) :
    (preprocess_image f = .error .fileNotFound ↔ f.isFile = false) ∧
    (preprocess_image f = .error .unsupportedType ↔
      f.isFile = true ∧
      supportedSuffixes.contains (lowerStr (pathSuffix f.path)) = false) ∧
    (preprocess_image f = .error .emptyFile ↔
      f.isFile = true ∧
      supportedSuffixes.contains (lowerStr (pathSuffix f.path)) = true ∧
      f.size = 0) ∧
    (preprocess_image f = .error .corruptFile ↔
      f.isFile = true ∧
      supportedSuffixes.contains (lowerStr (pathSuffix f.path)) = true ∧
      f.size ≠ 0 ∧ f.verifies = false) ∧
    (preprocess_image f = .ok () ↔
      f.isFile = true ∧
      supportedSuffixes.contains (lowerStr (pathSuffix f.path)) = true ∧
      f.size ≠ 0 ∧ f.verifies = true) := by
  unfold preprocess_image
  rcases hf : f.isFile <;>
    rcases hs : supportedSuffixes.contains (lowerStr (pathSuffix f.path)) <;>
    by_cases hz : f.size = 0 <;>
    rcases hv : f.verifies <;>
    simp [hf, hs, hz, hv]

/-! ## C10 — `update_url` result and frame conditions -/

/-- C10: `update_url` reports `True` exactly when some stored record has
that exact `image_path`; the store keeps its length, every field of every
row other than `obituary_url` is unchanged, and `obituary_url` is set to the
new value on matching rows and untouched elsewhere. -/
theorem c10_update_url_frame (db : List ObituaryRecord) (p url : String) :
    ((update_url db p url).2 = true ↔ ∃ r ∈ db, r.image_path = p) ∧
    (update_url db p url).1.length = db.length ∧
    (∀ i, i < db.length →
      ((update_url db p url).1.getD i emptyRecord).image_path =
        (db.getD i emptyRecord).image_path ∧
      ((update_url db p url).1.getD i emptyRecord).text_content =
        (db.getD i emptyRecord).text_content ∧
      ((update_url db p url).1.getD i emptyRecord).year =
        (db.getD i emptyRecord).year ∧
      ((update_url db p url).1.getD i emptyRecord).month =
        (db.getD i emptyRecord).month ∧
      ((update_url db p url).1.getD i emptyRecord).day =
        (db.getD i emptyRecord).day ∧
      ((update_url db p url).1.getD i emptyRecord).date_published =
        (db.getD i emptyRecord).date_published ∧
      ((update_url db p url).1.getD i emptyRecord).name =
        (db.getD i emptyRecord).name ∧
      ((update_url db p url).1.getD i emptyRecord).last_name =
        (db.getD i emptyRecord).last_name ∧
      ((update_url db p url).1.getD i emptyRecord).first_name =
        (db.getD i emptyRecord).first_name ∧
      ((update_url db p url).1.getD i emptyRecord).image =
        (db.getD i emptyRecord).image ∧
      (if (db.getD i emptyRecord).image_path = p then
        ((update_url db p url).1.getD i emptyRecord).obituary_url = some url
      else
        ((update_url db p url).1.getD i emptyRecord).obituary_url =
          (db.getD i emptyRecord).obituary_url)) := by
  refine ⟨?_, ?_, ?_⟩
  · simp [update_url, List.any_eq_true, beq_iff_eq]
  · simp [update_url]
  · intro i hi
    have hget : db.get? i = some (db.get ⟨i, hi⟩) := List.get?_eq_get hi
    have hmap : (update_url db p url).1.getD i emptyRecord =
        (if (db.get ⟨i, hi⟩).image_path == p then
          { db.get ⟨i, hi⟩ with obituary_url := some url }
        else db.get ⟨i, hi⟩) := by
      rw [List.getD_eq_getD_get?, update_url, List.get?_map, hget]
      rfl
    have hdb : db.getD i emptyRecord = db.get ⟨i, hi⟩ := by
      rw [List.getD_eq_getD_get?, hget]; rfl
    rw [hmap, hdb]
    set x := db.get ⟨i, hi⟩ with hx
    by_cases hp : x.image_path = p
    · simp [hp]
    · simp [hp]

/-- C10 witness: a two-row store, updating the first row's path. -/
theorem c10_update_url_frame_witness :
    ((update_url db0 "a.jpg" "u").1.getD 0 emptyRecord).image_path =
      (db0.getD 0 emptyRecord).image_path ∧
    ((update_url db0 "a.jpg" "u").1.getD 0 emptyRecord).text_content =
      (db0.getD 0 emptyRecord).text_content :=
  ⟨((c10_update_url_frame db0 "a.jpg" "u").2.2 0 (by decide)).1,
   ((c10_update_url_frame db0 "a.jpg" "u").2.2 0 (by decide)).2.1⟩

/-! ## C6 — name parsing from the filename stem -/

/-- C6 counterexample: for the underscore-free filename `"Smith.jpg"` the
date regex fails, so `from_image_path` leaves the full-name field `None`
rather than keeping the raw stem `"Smith"` as the claim states. -/
theorem c6_counterexample :
    (ObituaryRecord.from_image_path "Smith.jpg" "t" 0 none).name ≠ some "Smith" := by
  decide

/-- C6 (amended): the stem `"19910110_Alt_Russell_Darl"` yields the claimed
year/month/day, names and publication date; but when the stem does not match
the `YYYYMMDD_` prefix pattern (in particular when the filename has no
underscore at all) every derived field including the full name is `None`;
the raw name segment is kept as the full name exactly when the stem matches
and the segment has no further underscore (first/last names then absent). -/
theorem c6_name_parsing :
    ((ObituaryRecord.from_image_path "19910110_Alt_Russell_Darl.jpg" "t" 0 none).year = some "1991" ∧
     (ObituaryRecord.from_image_path "19910110_Alt_Russell_Darl.jpg" "t" 0 none).month = some "01" ∧
     (ObituaryRecord.from_image_path "19910110_Alt_Russell_Darl.jpg" "t" 0 none).day = some "10" ∧
     (ObituaryRecord.from_image_path "19910110_Alt_Russell_Darl.jpg" "t" 0 none).last_name = some "Alt" ∧
     (ObituaryRecord.from_image_path "19910110_Alt_Russell_Darl.jpg" "t" 0 none).first_name = some "Russell Darl" ∧
     (ObituaryRecord.from_image_path "19910110_Alt_Russell_Darl.jpg" "t" 0 none).name = some "Alt, Russell Darl" ∧
     (ObituaryRecord.from_image_path "19910110_Alt_Russell_Darl.jpg" "t" 0 none).date_published = some ⟨1991, 1, 10⟩) ∧
    (∀ p t : String, ∀ i : Nat, ∀ u : Option String,
      matchDatePattern (pathStem p) = none →
      (ObituaryRecord.from_image_path p t i u).year = none ∧
      (ObituaryRecord.from_image_path p t i u).month = none ∧
      (ObituaryRecord.from_image_path p t i u).day = none ∧
      (ObituaryRecord.from_image_path p t i u).date_published = none ∧
      (ObituaryRecord.from_image_path p t i u).name = none ∧
      (ObituaryRecord.from_image_path p t i u).first_name = none ∧
      (ObituaryRecord.from_image_path p t i u).last_name = none) ∧
    (∀ p t : String, ∀ i : Nat, ∀ u : Option String, ∀ y m d nm : String,
      matchDatePattern (pathStem p) = some (y, m, d, nm) →
      nm ≠ "" → '_' ∉ nm.data →
      (ObituaryRecord.from_image_path p t i u).name = some nm ∧
      (ObituaryRecord.from_image_path p t i u).first_name = none ∧
      (ObituaryRecord.from_image_path p t i u).last_name = none) := by
  refine ⟨⟨rfl, rfl, rfl, rfl, rfl, rfl, rfl⟩, ?_, ?_⟩
  · intro p t i u hm
    simp only [ObituaryRecord.from_image_path]
    rw [hm]
    simp
  · intro p t i u y m d nm hm hne hund
    have hsplit : splitOnChar '_' nm.data = [nm.data] :=
      splitOnChar_eq_single nm.data hund
    simp only [ObituaryRecord.from_image_path]
    rw [hm]
    simp [format_name, hne, hsplit]

/-- C6 witness: the no-match part at `"Smith.jpg"` and the
single-segment part at `"19910110_Alt.jpg"`. -/
theorem c6_name_parsing_witness :
    ((ObituaryRecord.from_image_path "Smith.jpg" "t" 0 none).name = none) ∧
    ((ObituaryRecord.from_image_path "19910110_Alt.jpg" "t" 0 none).name = some "Alt") :=
  ⟨((c6_name_parsing.2.1 "Smith.jpg" "t" 0 none (by decide)).2.2.2.2).1,
   (c6_name_parsing.2.2 "19910110_Alt.jpg" "t" 0 none
      "1991" "01" "10" "Alt" (by decide) (by decide) (by decide)).1⟩

/-! ## C8 — quote-glyph normalisation -/

/-- A quote glyph other than the apostrophe never survives `quoteFix`. -/
theorem quoteGlyph_not_mem_quoteFix (c : Char)
    (hc : quoteGlyphs.contains c = true) (hne : c ≠ '\'') (l : List Char) :
    c ∉ quoteFix l := by
  intro hmem
  simp only [quoteFix, List.mem_map] at hmem
  obtain ⟨a, _, ha⟩ := hmem
  by_cases h : quoteGlyphs.contains a = true
  · rw [if_pos h] at ha
    exact hne ha.symm
  · rw [if_neg h] at ha
    rw [ha] at h
    exact h hc

/-- No quote glyph other than the apostrophe survives `clean_text` on a
non-empty input: its final pass is `quoteFix`. -/
theorem clean_text_no_glyph (c : Char) (hc : quoteGlyphs.contains c = true)
    (hne : c ≠ '\'') (s : String) (hs : ¬(s = "")) :
    c ∉ (TextNormalizer.clean_text s).data := by
  unfold TextNormalizer.clean_text
  split
  · rename_i hemp
    exact absurd hemp hs
  · apply quoteGlyph_not_mem_quoteFix c hc hne

/-- C8 counterexample: a backtick is deleted by the stray-glyph removal
stage before quote normalisation ever sees it — `clean("a`b")` is `"ab"`,
not the `"a'b"` the claim requires. -/
theorem c8_counterexample :
    TextNormalizer.clean_text "a\x60b" = "ab" ∧
    TextNormalizer.clean_text "a\x60b" ≠ "a'b" := by
  refine ⟨rfl, ?_⟩
  rw [show TextNormalizer.clean_text "a\x60b" = "ab" from rfl]
  decide

/-- C8 (amended): `clean_text` leaves no double quote, backtick or acute
accent in its output; the double quote and the acute accent are unified to
the canonical apostrophe, while a backtick is removed outright by the
earlier stray-glyph rule (so it appears as nothing, not as an apostrophe). -/
theorem c8_quote_glyphs :
    (∀ s : String,
      '\"' ∉ (TextNormalizer.clean_text s).data ∧
      '\x60' ∉ (TextNormalizer.clean_text s).data ∧
      '´' ∉ (TextNormalizer.clean_text s).data) ∧
    TextNormalizer.clean_text "a\"b" = "a'b" ∧
    TextNormalizer.clean_text "a´b" = "a'b" ∧
    TextNormalizer.clean_text "a\x60b" = "ab" := by
  refine ⟨?_, rfl, rfl, rfl⟩
  intro s
  by_cases hs : s = ""
  · subst hs
    exact ⟨by decide, by decide, by decide⟩
  · exact ⟨clean_text_no_glyph '\"' rfl (by decide) s hs,
           clean_text_no_glyph '\x60' rfl (by decide) s hs,
           clean_text_no_glyph '´' rfl (by decide) s hs⟩

/-! ## C2 — (non-)idempotence of normalisation -/

/-- C2: `clean` is not idempotent; the digit-repair rule consumes the letter
after the repaired digit, so of two overlapping repair sites only the first
is rewritten per pass: `clean("a1a1a") = "ala1a"` but
`clean("ala1a") = "alala"`, in both `clean_irregular_text` (the pipeline's
clean) and `TextNormalizer.clean_text`. -/
theorem c2_clean_not_idempotent :
    clean_irregular_text "a1a1a" = "ala1a" ∧
    clean_irregular_text (clean_irregular_text "a1a1a") = "alala" ∧
    clean_irregular_text (clean_irregular_text "a1a1a") ≠
      clean_irregular_text "a1a1a" ∧
    TextNormalizer.clean_text "a1a1a" = "ala1a" ∧
    TextNormalizer.clean_text (TextNormalizer.clean_text "a1a1a") = "alala" ∧
    TextNormalizer.clean_text (TextNormalizer.clean_text "a1a1a") ≠
      TextNormalizer.clean_text "a1a1a" := by
  refine ⟨rfl, rfl, ?_, rfl, rfl, ?_⟩
  · rw [show clean_irregular_text (clean_irregular_text "a1a1a") = "alala" from rfl,
        show clean_irregular_text "a1a1a" = "ala1a" from rfl]
    decide
  · rw [show TextNormalizer.clean_text (TextNormalizer.clean_text "a1a1a") = "alala" from rfl,
        show TextNormalizer.clean_text "a1a1a" = "ala1a" from rfl]
    decide

/-! ## C1 — dedup and idempotence of the batch -/

/-- C1: the dedup machinery of `transcribe_images` is broken twice over.
As written, record construction always raises (`from_image_path` is called
without its required `raw_image` argument), so a run over a fresh image
inserts nothing and returns nothing.  With the construction repaired as
intended, the run still looks records up under `str(file)` but stores them
under `file.name`, so a second run over the unchanged directory misses the
existing record and inserts a duplicate: two rows share the image path
`"19910110_Alt.jpg"`. -/
theorem c1_dedup_broken :
    transcribe_images [altFile] [] = .ok ([], []) ∧
    countPath (storeAfterIntended [altFile] []) "19910110_Alt.jpg" = 1 ∧
    countPath (storeAfterIntended [altFile] (storeAfterIntended [altFile] []))
      "19910110_Alt.jpg" = 2 :=
  ⟨rfl, rfl, rfl⟩

/-! ## C3 — per-image failure containment -/

/-- C3 counterexample: a listed file that no longer exists raises
`FileNotFoundError`, which the orchestrator's `except ValueError` does not
catch — the batch aborts and the healthy image after it is never reached. -/
theorem c3_counterexample :
    transcribe_images [ghostFile, altFile] [] = .error () :=
  rfl

/-- C3 (amended): unsupported-type, empty-file and corrupt-file validation
failures (`ValueError`s) and every failure of the OCR/record/store phase are
contained — a batch whose preprocessing never raises `FileNotFoundError`
always runs to completion — but a file-not-found failure on a not-yet-stored
image propagates and aborts `transcribe_images`. -/
theorem c3_error_containment :
    (∀ files : List ImageFile, ∀ db acc : List ObituaryRecord,
      (∀ f ∈ files, preprocess_image f.fs ≠ .error .fileNotFound) →
      ∃ pr, transcribe_images_aux files db acc = .ok pr) ∧
    (∀ f : ImageFile, ∀ files : List ImageFile, ∀ db : List ObituaryRecord,
      preprocess_image f.fs = .error .fileNotFound →
      get_record_by_image_path db f.fs.path = none →
      transcribe_images (f :: files) db = .error ()) := by
  constructor
  · intro files
    induction files with
    | nil => exact fun db acc _ => ⟨(db, acc), rfl⟩
    | cons f rest ih =>
      intro db acc h
      have hf : preprocess_image f.fs ≠ .error .fileNotFound :=
        h f (List.mem_cons_self f rest)
      have hrest : ∀ g ∈ rest, preprocess_image g.fs ≠ .error .fileNotFound :=
        fun g hg => h g (List.mem_cons_of_mem f hg)
      simp only [transcribe_images_aux]
      cases hrec : get_record_by_image_path db f.fs.path with
      | some r => exact ih db (acc ++ [r]) hrest
      | none =>
        cases hpre : preprocess_image f.fs with
        | error e =>
          have hval : e.isValueError = true := by
            cases e with
            | fileNotFound => exact absurd hpre hf
            | unsupportedType => rfl
            | emptyFile => rfl
            | corruptFile => rfl
          show ∃ pr, (if e.isValueError = true then transcribe_images_aux rest db acc
              else Except.error ()) = Except.ok pr
          rw [hval]
          simpa using ih db acc hrest
        | ok u =>
          cases u
          cases f.ocr with
          | text t => exact ih db acc hrest
          | unidentifiedImage => exact ih db acc hrest
          | failure => exact ih db acc hrest
  · intro f files db hpre hrec
    simp only [transcribe_images, transcribe_images_aux]
    rw [hrec, hpre]
    rfl

/-- C3 witness: the containment part on a healthy singleton batch, and the
abort part on the vanished file over an empty store. -/
theorem c3_error_containment_witness :
    (∃ pr, transcribe_images_aux [altFile] [] [] = .ok pr) ∧
    transcribe_images [ghostFile] [] = .error () :=
  ⟨c3_error_containment.1 [altFile] [] []
      (by
        intro f hf
        simp only [List.mem_singleton] at hf
        subst hf
        rw [show preprocess_image altFile.fs = .ok () from rfl]
        simp),
   c3_error_containment.2 ghostFile [] [] rfl rfl⟩

/-! ## C4 — spell-correction token policy -/

/-- The core/punctuation split of `correctToken` reassembles the token. -/
theorem core_append_punct (q : Char → Bool) (w : List Char) :
    (w.reverse.dropWhile q).reverse ++ (w.reverse.takeWhile q).reverse = w := by
  rw [← List.reverse_append, List.takeWhile_append_dropWhile, List.reverse_reverse]

/-- No character of the punctuation set is uppercase. -/
theorem isPunct_not_upper (c : Char) (hc : isPunct c = true) : c.isUpper = false := by
  have hmem : c ∈ PUNCT_SET := by simpa [isPunct] using hc
  fin_cases hmem <;> rfl

/-- Uppercase-initial tokens pass through `correctToken` verbatim. -/
theorem correctToken_upper (corr : String → Option String) (c0 : Char)
    (cs : List Char) (hup : c0.isUpper = true) :
    correctToken corr (c0 :: cs) = some (c0 :: cs) := by
  simp only [correctToken]
  cases hlast : isPunct ((c0 :: cs).getLast (List.cons_ne_nil c0 cs)) with
  | false => simp [hlast, hup]
  | true =>
    simp only [hlast, Bool.not_true, Bool.false_eq_true, if_false]
    cases hcore : ((c0 :: cs).reverse.dropWhile isPunct).reverse with
    | nil => rfl
    | cons d0 ds =>
      have hw : (d0 :: ds) ++ ((c0 :: cs).reverse.takeWhile isPunct).reverse = c0 :: cs := by
        rw [← hcore]
        exact core_append_punct isPunct (c0 :: cs)
      have h2 := hw
      rw [List.cons_append] at h2
      injection h2 with h3 _
      subst h3
      simp only [hup, if_true]
      rw [hw]

/-- All-punctuation tokens pass through `correctToken` unmodified. -/
theorem correctToken_all_punct (corr : String → Option String) (c0 : Char)
    (cs : List Char) (hall : ∀ c ∈ c0 :: cs, isPunct c = true) :
    correctToken corr (c0 :: cs) = some (c0 :: cs) := by
  have hlast : isPunct ((c0 :: cs).getLast (List.cons_ne_nil c0 cs)) = true :=
    hall _ (List.getLast_mem _)
  have hcore : (c0 :: cs).reverse.dropWhile isPunct = [] :=
    List.dropWhile_eq_nil_iff.mpr (fun x hx => hall x (List.mem_reverse.mp hx))
  simp only [correctToken, hlast, Bool.not_true, Bool.false_eq_true, if_false,
    hcore, List.reverse_nil]

/-- Lowercase-initial tokens have their maximal trailing punctuation run
stripped before correction and reattached unchanged afterwards. -/
theorem correctToken_strip (corr : String → Option String) (c0 : Char)
    (cs P : List Char) (hup : c0.isUpper = false)
    (hlast : isPunct ((c0 :: cs).getLast (List.cons_ne_nil c0 cs)) = false)
    (hP : ∀ c ∈ P, isPunct c = true) :
    correctToken corr ((c0 :: cs) ++ P) =
      some (pyOr (corr ⟨c0 :: cs⟩) (c0 :: cs) ++ P) := by
  cases P with
  | nil =>
    rw [List.append_nil, List.append_nil]
    simp only [correctToken, hlast, Bool.not_false, if_true, hup,
      Bool.false_eq_true, if_false]
  | cons p ps =>
    rw [List.cons_append]
    have hlast2 : isPunct ((c0 :: (cs ++ p :: ps)).getLast
        (List.cons_ne_nil c0 (cs ++ p :: ps))) = true := by
      have h1 : (c0 :: (cs ++ p :: ps)).getLast? = (p :: ps).getLast? := by
        rw [← List.cons_append, List.getLast?_append,
          List.getLast?_eq_getLast (p :: ps) (List.cons_ne_nil p ps)]
        rfl
      rw [List.getLast?_eq_getLast (c0 :: (cs ++ p :: ps)) (List.cons_ne_nil _ _),
        List.getLast?_eq_getLast (p :: ps) (List.cons_ne_nil p ps)] at h1
      rw [Option.some.inj h1]
      exact hP _ (List.getLast_mem _)
    have hrev : (c0 :: (cs ++ p :: ps)).reverse =
        (p :: ps).reverse ++ (c0 :: cs).reverse := by
      rw [← List.cons_append, List.reverse_append]
    have hdropP : (p :: ps).reverse.dropWhile isPunct = [] :=
      List.dropWhile_eq_nil_iff.mpr (fun x hx => hP x (List.mem_reverse.mp hx))
    have htakeP : (p :: ps).reverse.takeWhile isPunct = (p :: ps).reverse :=
      List.takeWhile_eq_self_iff.mpr (fun x hx => hP x (List.mem_reverse.mp hx))
    obtain ⟨h0, t0, hrev0⟩ : ∃ h0 t0, (c0 :: cs).reverse = h0 :: t0 := by
      cases hx : (c0 :: cs).reverse with
      | nil => exact absurd (List.reverse_eq_nil_iff.mp hx) (List.cons_ne_nil c0 cs)
      | cons a b => exact ⟨a, b, rfl⟩
    have hh0 : isPunct h0 = false := by
      have h1 : (c0 :: cs).reverse.head? = some h0 := by rw [hrev0]; rfl
      rw [List.head?_reverse,
        List.getLast?_eq_getLast (c0 :: cs) (List.cons_ne_nil c0 cs)] at h1
      rw [← Option.some.inj h1]
      exact hlast
    have hdrop : (c0 :: (cs ++ p :: ps)).reverse.dropWhile isPunct =
        (c0 :: cs).reverse := by
      rw [hrev, List.dropWhile_append, hdropP]
      simp only [List.isEmpty_nil, if_true]
      rw [hrev0, List.dropWhile_cons, hh0]
      simp
    have htake : (c0 :: (cs ++ p :: ps)).reverse.takeWhile isPunct =
        (p :: ps).reverse := by
      rw [hrev, List.takeWhile_append, htakeP]
      simp only [if_pos rfl]
      rw [hrev0, List.takeWhile_cons, hh0]
      simp
    simp only [correctToken, hlast2, Bool.not_true, Bool.false_eq_true, if_false,
      hdrop, htake, List.reverse_reverse, hup]

/-- When the dictionary has no suggestion the original token is kept
(punctuation included). -/
theorem correctToken_no_suggestion (corr : String → Option String) (c0 : Char)
    (cs P : List Char) (hup : c0.isUpper = false)
    (hlast : isPunct ((c0 :: cs).getLast (List.cons_ne_nil c0 cs)) = false)
    (hP : ∀ c ∈ P, isPunct c = true) (hnone : corr ⟨c0 :: cs⟩ = none) :
    correctToken corr ((c0 :: cs) ++ P) = some ((c0 :: cs) ++ P) := by
  rw [correctToken_strip corr c0 cs P hup hlast hP, hnone]
  rfl

/-- The whitespace split (Python `text.split()`) produces no empty token. -/
theorem pySplitAux_no_nil : ∀ l acc : List Char, [] ∉ pySplitAux l acc := by
  intro l
  induction l with
  | nil =>
    intro acc h
    cases acc with
    | nil => simp [pySplitAux] at h
    | cons a as => simp [pySplitAux] at h
  | cons c rest ih =>
    intro acc h
    by_cases hsp : isPySpace c = true
    · cases acc with
      | nil =>
        simp [pySplitAux, hsp] at h
        exact ih [] h
      | cons a as =>
        simp [pySplitAux, hsp] at h
        exact ih [] h
    · simp [pySplitAux, hsp] at h
      exact ih (c :: acc) h

/-- C4: the per-token policy of the spell corrector (as implemented in
`obit_reader.autocorrect_text`, the behaviour its own test suite asserts):
an uppercase-initial token is never corrected and passes through verbatim;
an all-punctuation token passes through unmodified; otherwise the maximal
trailing run from the fixed punctuation set is stripped before dictionary
correction and reattached unchanged; a token with no dictionary suggestion
is kept as-is; whitespace splitting produces no empty token (they are
dropped); and two end-to-end examples through `autocorrect_text`. -/
theorem c4_token_policy :
    (∀ corr : String → Option String, ∀ c0 : Char, ∀ cs : List Char,
      c0.isUpper = true → correctToken corr (c0 :: cs) = some (c0 :: cs)) ∧
    (∀ corr : String → Option String, ∀ c0 : Char, ∀ cs : List Char,
      (∀ c ∈ c0 :: cs, isPunct c = true) →
      correctToken corr (c0 :: cs) = some (c0 :: cs)) ∧
    (∀ corr : String → Option String, ∀ c0 : Char, ∀ cs P : List Char,
      c0.isUpper = false →
      isPunct ((c0 :: cs).getLast (List.cons_ne_nil c0 cs)) = false →
      (∀ c ∈ P, isPunct c = true) →
      correctToken corr ((c0 :: cs) ++ P) =
        some (pyOr (corr ⟨c0 :: cs⟩) (c0 :: cs) ++ P)) ∧
    (∀ corr : String → Option String, ∀ c0 : Char, ∀ cs P : List Char,
      c0.isUpper = false →
      isPunct ((c0 :: cs).getLast (List.cons_ne_nil c0 cs)) = false →
      (∀ c ∈ P, isPunct c = true) →
      corr ⟨c0 :: cs⟩ = none →
      correctToken corr ((c0 :: cs) ++ P) = some ((c0 :: cs) ++ P)) ∧
    (∀ l : List Char, [] ∉ pySplit l) ∧
    autocorrect_text corrEx "John and Marry went to Londn." =
      "John and Marry went to Londn." ∧
    autocorrect_text corrEx "a tst." = "a test." :=
  ⟨correctToken_upper, correctToken_all_punct, correctToken_strip,
   correctToken_no_suggestion, fun l => pySplitAux_no_nil l [], rfl, rfl⟩

/-- C4 witness: the four policy parts applied at concrete tokens. -/
theorem c4_token_policy_witness :
    correctToken corrEx ('L' :: "ondn.".data) = some ('L' :: "ondn.".data) ∧
    correctToken corrEx ('!' :: "!!".data) = some ('!' :: "!!".data) ∧
    correctToken corrEx (('t' :: "st".data) ++ ".".data) =
      some (pyOr (corrEx ⟨'t' :: "st".data⟩) ('t' :: "st".data) ++ ".".data) ∧
    correctToken corrEx (('q' :: "q".data) ++ ".".data) =
      some (('q' :: "q".data) ++ ".".data) :=
  ⟨c4_token_policy.1 corrEx 'L' "ondn.".data (by decide),
   c4_token_policy.2.1 corrEx '!' "!!".data (by decide),
   c4_token_policy.2.2.1 corrEx 't' "st".data ".".data
     (by decide) (by decide) (by decide),
   c4_token_policy.2.2.2.1 corrEx 'q' "q".data ".".data
     (by decide) (by decide) (by decide) (by decide)⟩
